import Mathlib

/-!
# Shallow embedding of `clover`'s board-level cache protocol (`src/board.rs`)

The core under verification is `Board` from `src/board.rs`: catalog
synchronization with conditional HTTP revalidation, lazy thread access,
and cached search.  External collaborators (the transport client, regex
compilation, JSON deserialization, the `Thread` entity's `update`) are
modelled as explicit function parameters, and the shared mutable state
(`thread_cache`, `catalog_last_modified`) is threaded through the
functions as explicit state.
-/

set_option autoImplicit false

/-- Error kinds of the crate's `::Error`, as consumed by `board.rs`.
`transport` and `parseError` stand for the passthrough of transport
(I/O) and deserialization failures; `unwrapPanic` marks the places
where the Rust code calls `.unwrap()` on an `Option`. -/
inductive Err where
  | invalidBoardName
  | unexpectedResponse
  | invalidQuery
  | transport (code : Nat)
  | parseError (msg : String)
  | unwrapPanic
  deriving DecidableEq, Repr

/-- A catalog topic post (`::Post` as used by `board.rs`): only the
thread number `no` is consumed by the core; text fields feed the
external `is_match` predicate, which we model as a function
parameter. -/
structure Post where
  no : Nat
  deriving DecidableEq, Repr

/-- The `::Thread` entity as consumed by `board.rs`: the originating
post (`topic`), the `expired` flag, and the board name it was created
for.  Its mutable internal state is updated through the external
`update` collaborator, modelled as a `Thread → Except Err Thread`
parameter. -/
structure Thread where
  topic : Post
  expired : Bool
  board : String
  deriving DecidableEq, Repr

/-- Modelled from the spec: `Thread::from_topic(topic, board_name,
client_handle)` is not under `src/`; per §3 of the spec a thread built
from a catalog topic carries that topic and is live (not expired). -/
def Thread.from_topic (topic : Post) (board : String) : Thread :=
  { topic := topic, expired := false, board := board }

/-- Modelled from the spec: the raw deserialized shape fed to
`Thread::from_deserializer` (`::ThreadDeserializer`), which is not
under `src/`. -/
structure ThreadDeserializer where
  topic : Post
  expired : Bool
  deriving DecidableEq, Repr

/-- Modelled from the spec: `Thread::from_deserializer(raw, board_name,
client_handle)` is not under `src/`; it builds the entity carried by
the raw thread JSON for the given board. -/
def Thread.from_deserializer (d : ThreadDeserializer) (board : String) : Thread :=
  { topic := d.topic, expired := d.expired, board := board }

/-- Modelled from the spec: `::ThreadCache` is not under `src/`.  Per
§3/§6 it is a mapping from thread identifier to `Thread` with unique
keys, supporting `new`, `insert` (keyed by the entity's thread number,
overwriting an existing entry), `contains`, `get`, `get_mut` and
`remove`.  We represent it as an association list. -/
structure ThreadCache where
  threads : List (Nat × Thread)
  deriving DecidableEq, Repr

/-- Modelled from the spec: `ThreadCache::new()` creates an empty cache. -/
def ThreadCache.new : ThreadCache := ⟨[]⟩

/-- The values view of the cache (`self.threads.values()`). -/
def ThreadCache.values (c : ThreadCache) : List Thread :=
  c.threads.map Prod.snd

/-- Modelled from the spec: `ThreadCache::contains(id)`. -/
def ThreadCache.contains (c : ThreadCache) (no : Nat) : Bool :=
  c.threads.any (fun p => p.1 == no)

/-- Modelled from the spec: `ThreadCache::get(id)`. -/
def ThreadCache.get (c : ThreadCache) (no : Nat) : Option Thread :=
  (c.threads.find? (fun p => p.1 == no)).map Prod.snd

/-- Modelled from the spec: `ThreadCache::insert(entity)` keys the
entry by the entity's thread number and overwrites an existing entry
for the same key rather than duplicating it. -/
def ThreadCache.insert (c : ThreadCache) (t : Thread) : ThreadCache :=
  if c.contains t.topic.no then
    ⟨c.threads.map (fun p => if p.1 == t.topic.no then (p.1, t) else p)⟩
  else
    ⟨c.threads ++ [(t.topic.no, t)]⟩

/-- Modelled from the spec: `ThreadCache::remove(id)`. -/
def ThreadCache.remove (c : ThreadCache) (no : Nat) : ThreadCache :=
  ⟨c.threads.filter (fun p => ¬ p.1 == no)⟩

/-- In-place mutation of the entry at key `no`
(`threads.get_mut(&no)` followed by a mutation of the entity):
the key stays, the value is replaced. -/
def ThreadCache.setAt (c : ThreadCache) (no : Nat) (t : Thread) : ThreadCache :=
  ⟨c.threads.map (fun p => if p.1 == no then (no, t) else p)⟩

/-- The loop body of `Board::find_cached` (`board.rs` lines 100–109):
for each matching thread, `update()` it in place; if it is not expired
push a clone onto `return_threads`, otherwise remove it from the
cache.  Returns the final cache, the in-place-updated `threads`
vector, the `return_threads` vector, and the error that aborted the
loop via `try!`, if any. -/
def findLoop (upd : Thread → Except Err Thread) :
    List Thread → ThreadCache → ThreadCache × List Thread × List Thread × Option Err
  | [], cache => (cache, [], [], none)
  | t :: rest, cache =>
    match upd t with
    | .error e => (cache, t :: rest, [], some e)
    | .ok t' =>
      if !t'.expired then
        let (cache2, lst, ret, e) := findLoop upd rest cache
        (cache2, t' :: lst, t' :: ret, e)
      else
        let cache1 := cache.remove t'.topic.no
        let (cache2, lst, ret, e) := findLoop upd rest cache1
        (cache2, t' :: lst, ret, e)

/-- `Board::find_cached(query)` (`board.rs` lines 86–112).  Regex
compilation is the external `compile` parameter (`Except` models
`RegexBuilder::build`), the entity's `update` is `upd`.  The function
filters the cache values through the matcher, runs the update loop,
and — exactly as the source does — returns the in-place-updated
`threads` vector (`Ok(threads)`), not the separately accumulated
`return_threads`.  The cache state is returned in all outcomes since
removals committed before a failing `update` persist. -/
def Board.find_cached (compile : Except Err (Thread → Bool))
    (upd : Thread → Except Err Thread) (cache : ThreadCache) :
    ThreadCache × Except Err (List Thread) :=
  match compile with
  | .error e => (cache, .error e)
  | .ok matcher =>
    let threads := cache.values.filter matcher
    let (cache', lst, _returnThreads, e?) := findLoop upd threads cache
    match e? with
    | some e => (cache', .error e)
    | none => (cache', .ok lst)

/-- HTTP status as matched by `board.rs` (`StatusCode::Ok`,
`StatusCode::NotModified`, and the catch-all `_` arm carrying any
other status code). -/
inductive Status where
  | ok
  | notModified
  | other (code : Nat)
  deriving DecidableEq, Repr

/-- A transport response: a status and a readable body
(`read_to_string` can fail, so the body is fallible). -/
structure Response where
  status : Status
  body : Except Err String
  deriving Repr

/-- The request handed to `Client::get(url, Option<IfModifiedSince>)`. -/
structure Request where
  url : String
  ifModifiedSince : Option String
  deriving DecidableEq, Repr

/-- A catalog page (`Page` in `board.rs`): a page number and the
topic posts of the threads on that page. -/
structure Page where
  page : Nat
  topics : List Post
  deriving DecidableEq, Repr

/-- A parsed catalog (`Catalog` in `board.rs`): the sequence of pages. -/
structure Catalog where
  pages : List Page
  deriving DecidableEq, Repr

/-- `Catalog::topics()` (`board.rs` lines 153–159): flatten all pages
into one sequence of topic posts via a fold, page order preserved. -/
def Catalog.topics (c : Catalog) : List Post :=
  c.pages.foldl (fun acc p => acc ++ p.topics) []

/-- `Catalog::find(query)` (`board.rs` lines 161–178): compile the
regex (external, the `compile` parameter), filter the flattened topic
list through it, and return `None` when the result is empty, `Some`
of it otherwise.  The function touches no cache and mutates nothing. -/
def Catalog.find (compile : Except Err (Post → Bool)) (c : Catalog) :
    Except Err (Option (List Post)) :=
  match compile with
  | .error e => .error e
  | .ok matcher =>
    let topics := c.topics.filter matcher
    if topics.isEmpty then .ok none else .ok (some topics)

/-- The `Board` state from `board.rs`: the immutable board name, the
shared thread cache, and the optional catalog-fetch timestamp.
Timestamps (`DateTime<UTC>`) are abstract: we only format and store
them, so a `Nat` tag suffices.  The shared `client` handle is
represented by the function parameters of each operation. -/
structure Board where
  name : String
  thread_cache : ThreadCache
  catalog_last_modified : Option Nat
  deriving DecidableEq, Repr

/-- `Board::new(client, name)` (`board.rs` lines 21–32): reject names
the transport client's `is_valid_board` rejects; otherwise build a
board with an empty cache and no recorded timestamp. -/
def Board.new (is_valid_board : String → Bool) (name : String) :
    Except Err Board :=
  if !is_valid_board name then
    .error .invalidBoardName
  else
    .ok { name := name, thread_cache := ThreadCache.new,
          catalog_last_modified := none }

/-- The catalog URL `https://a.4cdn.org/{name}/catalog.json`. -/
def catalogUrl (name : String) : String :=
  "https://a.4cdn.org/" ++ name ++ "/catalog.json"

/-- The thread URL `https://a.4cdn.org/{name}/thread/{no}.json`. -/
def threadUrl (name : String) (no : Nat) : String :=
  "https://a.4cdn.org/" ++ name ++ "/thread/" ++ toString no ++ ".json"

/-- The exact conditional-header format string of `board.rs` line 48. -/
def ifModifiedSinceFormat : String := "%a, %d %b %Y %T GMT"

/-- The request built by the `match` on `catalog_last_modified` at
`board.rs` lines 38–55: unconditional when no timestamp is recorded,
otherwise carrying the timestamp formatted with
`ifModifiedSinceFormat` as the `If-Modified-Since` header. -/
def Board.catalogRequest (fmt : Nat → String → String) (b : Board) : Request :=
  match b.catalog_last_modified with
  | none => { url := catalogUrl b.name, ifModifiedSince := none }
  | some dt =>
    { url := catalogUrl b.name,
      ifModifiedSince := some (fmt dt ifModifiedSinceFormat) }

/-- `Board::catalog()` (`board.rs` lines 37–78).  External
collaborators are parameters: `fmt` is chrono's `DateTime::format`,
`nowT` the value of `UTC::now()`, `get` the transport client, `parse`
the serde deserialization of a `Catalog`.  Returns the request that
was issued, the post-call board state (returned in every outcome,
because the timestamp write on a 200 response precedes — and so
survives — a later body-read or parse failure), and the result. -/
def Board.catalog (fmt : Nat → String → String) (nowT : Nat)
    (get : Request → Except Err Response)
    (parse : String → Except Err Catalog) (b : Board) :
    Request × Board × Except Err (Option Catalog) :=
  let req : Request := Board.catalogRequest fmt b
  match get req with
  | .error e => (req, b, .error e)
  | .ok res =>
    match res.status with
    | .ok =>
      let b1 := { b with catalog_last_modified := some nowT }
      match res.body with
      | .error e => (req, b1, .error e)
      | .ok buf =>
        let corrected := "\x7b\"pages\":" ++ buf ++ "\x7d"
        match parse corrected with
        | .error e => (req, b1, .error e)
        | .ok catalog =>
          let cache' := catalog.topics.foldl
            (fun c topic => c.insert (Thread.from_topic topic b.name))
            b1.thread_cache
          (req, { b1 with thread_cache := cache' }, .ok (some catalog))
    | .notModified => (req, b, .ok none)
    | .other _ => (req, b, .error .unexpectedResponse)

/-- `Board::get_thread(thread_no)` (`board.rs` lines 118–140).  If the
thread is cached: `update()` it in place through `get_mut` and return
a clone of the now-cached entry.  Otherwise: issue an unconditional
GET for the thread JSON, deserialize, insert into the cache and
return the entity.  Returns the request issued (if any), the
post-call board, and the result; the `.unwrapPanic` arms mark the
source's `.unwrap()` calls, unreachable sequentially because
`contains` guarantees presence. -/
def Board.get_thread (get : Request → Except Err Response)
    (parse : String → Except Err ThreadDeserializer)
    (upd : Thread → Except Err Thread) (b : Board) (thread_no : Nat) :
    Option Request × Board × Except Err Thread :=
  if b.thread_cache.contains thread_no then
    match b.thread_cache.get thread_no with
    | none => (none, b, .error .unwrapPanic)
    | some t =>
      match upd t with
      | .error e => (none, b, .error e)
      | .ok t' =>
        let cache' := b.thread_cache.setAt thread_no t'
        match cache'.get thread_no with
        | none => (none, { b with thread_cache := cache' }, .error .unwrapPanic)
        | some r => (none, { b with thread_cache := cache' }, .ok r)
  else
    let req : Request := { url := threadUrl b.name thread_no,
                           ifModifiedSince := none }
    match get req with
    | .error e => (some req, b, .error e)
    | .ok res =>
      match res.body with
      | .error e => (some req, b, .error e)
      | .ok buf =>
        match parse buf with
        | .error e => (some req, b, .error e)
        | .ok d =>
          let thread := Thread.from_deserializer d b.name
          (some req, { b with thread_cache := b.thread_cache.insert thread },
           .ok thread)

/-! ## Helper lemmas about the thread cache and the search loop -/

theorem ThreadCache.remove_sublist (c : ThreadCache) (no : Nat) :
    (c.remove no).threads.Sublist c.threads :=
  List.filter_sublist _

theorem findLoop_fst_sublist (upd : Thread → Except Err Thread)
    (l : List Thread) : ∀ c : ThreadCache,
    (findLoop upd l c).1.threads.Sublist c.threads := by
  induction l with
  | nil => intro c; exact List.Sublist.refl _
  | cons t rest ih =>
    intro c
    rw [findLoop]
    cases upd t with
    | error e => exact List.Sublist.refl _
    | ok t' =>
      cases ht : t'.expired with
      | false =>
        simp only [ht, Bool.not_false, if_true]
        rcases hfl : findLoop upd rest c with ⟨c2, lst, ret, e⟩
        have h1 := ih c
        rw [hfl] at h1
        exact h1
      | true =>
        simp only [ht, Bool.not_true, if_false]
        rcases hfl : findLoop upd rest (c.remove t'.topic.no) with ⟨c2, lst, ret, e⟩
        have h1 := ih (c.remove t'.topic.no)
        rw [hfl] at h1
        exact h1.trans (ThreadCache.remove_sublist c t'.topic.no)

/-! ## Claim theorems -/

/-- Claim C1 (code bug in `Board::find_cached`, `board.rs` line 111):
the function returns `Ok(threads)`, the in-place-updated match list,
instead of the separately accumulated `return_threads`, so a thread
that reports itself expired after revalidation IS present in the
returned vector even though it has been removed from the cache.  At
this concrete input (one cached matching thread whose `update` marks
it expired) the call empties the cache yet returns that expired
thread, contradicting the function's own doc comment ("Automatically
excludes expired threads"). -/
theorem find_cached_expired_in_result_bug :
    Board.find_cached (.ok (fun _ => true))
        (fun t => .ok { t with expired := true })
        ⟨[(1, { topic := ⟨1⟩, expired := false, board := "g" })]⟩
      = (⟨[]⟩, .ok [{ topic := ⟨1⟩, expired := true, board := "g" }])
    ∧ ({ topic := ⟨1⟩, expired := true, board := "g" } : Thread).expired = true :=
  ⟨rfl, rfl⟩

/-- Claim C7: For a query whose regex compiles, `Catalog::find` returns
`Ok(None)` when no topic matches and `Ok(Some _)` of exactly the
non-empty matching sequence otherwise; it never returns `Some` of an
empty sequence.  (It is a pure function of the catalog and the
compiled matcher: no cache appears in its signature, and it returns
without mutating anything.) -/
theorem catalog_find_none_iff_no_match (compile : Except Err (Post → Bool))
    (c : Catalog) (matcher : Post → Bool) (h : compile = .ok matcher) :
    (c.topics.filter matcher = [] → Catalog.find compile c = .ok none)
    ∧ (c.topics.filter matcher ≠ [] →
        Catalog.find compile c = .ok (some (c.topics.filter matcher)))
    ∧ (∀ l, Catalog.find compile c = .ok (some l) → l ≠ []) := by
  subst h
  unfold Catalog.find
  refine ⟨fun hempty => by simp [hempty], fun hne => by simp [hne], ?_⟩
  intro l hl
  by_cases hempty : c.topics.filter matcher = []
  · simp [hempty] at hl
  · simp [hempty] at hl
    exact hl ▸ hempty

/-- Witness for C7 (the spec's two-page scenario): topic 10 on page 1
matches, topic 20 on page 2 does not, and `find` returns
`Some([topic 10])`. -/
theorem catalog_find_none_iff_no_match_witness :
    Catalog.find (.ok (fun p => p.no == 10)) ⟨[⟨1, [⟨10⟩]⟩, ⟨2, [⟨20⟩]⟩]⟩
      = .ok (some [⟨10⟩]) :=
  (catalog_find_none_iff_no_match (.ok (fun p => p.no == 10))
    ⟨[⟨1, [⟨10⟩]⟩, ⟨2, [⟨20⟩]⟩]⟩ _ rfl).2.1 (by decide)

/-- Claim C8: `Board::new` fails with `InvalidBoardName` — creating no
board state at all — exactly when the transport client's
`is_valid_board` rejects the name; on an accepted name it returns a
board with an empty thread cache and no recorded catalog timestamp. -/
theorem board_new_valid_invalid (is_valid_board : String → Bool)
    (name : String) :
    (is_valid_board name = false →
      Board.new is_valid_board name = .error .invalidBoardName)
    ∧ (is_valid_board name = true →
      Board.new is_valid_board name
        = .ok { name := name, thread_cache := ThreadCache.new,
                catalog_last_modified := none }) := by
  constructor <;> intro h <;> simp [Board.new, h]

/-- Witness for C8: a rejected and an accepted concrete construction. -/
theorem board_new_valid_invalid_witness :
    Board.new (fun _ => false) "g" = .error .invalidBoardName
    ∧ Board.new (fun s => s == "g") "g"
        = .ok { name := "g", thread_cache := ThreadCache.new,
                catalog_last_modified := none } :=
  ⟨(board_new_valid_invalid (fun _ => false) "g").1 rfl,
   (board_new_valid_invalid (fun s => s == "g") "g").2 rfl⟩

/-- Claim C10: `find_cached` mutates the thread cache only by removing
entries: the post-call entry list is a subsequence of the pre-call
one, in every outcome (including compile failures and a failing
`update`).  Moreover, when no cached thread matches the query the
call returns `Ok([])` with the cache unchanged, and this holds for
every `update` collaborator — no update is attempted. -/
theorem find_cached_removal_only_frame (compile : Except Err (Thread → Bool))
    (upd : Thread → Except Err Thread) (cache : ThreadCache) :
    (Board.find_cached compile upd cache).1.threads.Sublist cache.threads
    ∧ (∀ matcher, compile = .ok matcher →
        cache.values.filter matcher = [] →
        Board.find_cached compile upd cache = (cache, .ok [])) := by
  constructor
  · unfold Board.find_cached
    cases compile with
    | error e => exact List.Sublist.refl _
    | ok matcher =>
      rcases hfl : findLoop upd (cache.values.filter matcher) cache with
        ⟨c2, lst, ret, e?⟩
      have h := findLoop_fst_sublist upd (cache.values.filter matcher) cache
      rw [hfl] at h
      dsimp only
      rw [hfl]
      cases e? <;> exact h
  · rintro matcher rfl hempty
    simp [Board.find_cached, hempty, findLoop]

/-- Witness for C10: a one-entry cache, a matcher matching nothing,
and an `update` collaborator that always fails — the call still
returns `Ok([])` with the cache unchanged, so no update ran. -/
theorem find_cached_removal_only_frame_witness :
    Board.find_cached (.ok (fun _ => false)) (fun _ => .error .unwrapPanic)
        ⟨[(1, { topic := ⟨1⟩, expired := false, board := "g" })]⟩
      = (⟨[(1, { topic := ⟨1⟩, expired := false, board := "g" })]⟩, .ok []) :=
  (find_cached_removal_only_frame (.ok (fun _ => false))
    (fun _ => .error .unwrapPanic)
    ⟨[(1, { topic := ⟨1⟩, expired := false, board := "g" })]⟩).2 _ rfl rfl

theorem catalog_fst_eq (fmt : Nat → String → String) (nowT : Nat)
    (get : Request → Except Err Response) (parse : String → Except Err Catalog)
    (b : Board) :
    (Board.catalog fmt nowT get parse b).1 = Board.catalogRequest fmt b := by
  unfold Board.catalog
  dsimp only
  repeat' split <;> try rfl

/-- Claim C3: A "not modified" catalog response returns `Ok(None)` and
leaves the board — the thread cache and the recorded timestamp alike —
exactly as it was before the call. -/
theorem catalog_not_modified_leaves_cache (fmt : Nat → String → String)
    (nowT : Nat) (get : Request → Except Err Response)
    (parse : String → Except Err Catalog) (b : Board) (res : Response)
    (hget : get (Board.catalogRequest fmt b) = .ok res)
    (hstatus : res.status = .notModified) :
    Board.catalog fmt nowT get parse b
      = (Board.catalogRequest fmt b, b, .ok none) := by
  simp [Board.catalog, hget, hstatus]

/-- Witness for C3: a concrete "not modified" exchange on a non-empty
cache returns `Ok(None)` with the board unchanged. -/
theorem catalog_not_modified_leaves_cache_witness :
    Board.catalog (fun _ s => s) 7 (fun _ => .ok ⟨.notModified, .ok ""⟩)
        (fun _ => .error (.parseError "")) ⟨"g", ⟨[(1, ⟨⟨1⟩, false, "g"⟩)]⟩, some 3⟩
      = (Board.catalogRequest (fun _ s => s)
           ⟨"g", ⟨[(1, ⟨⟨1⟩, false, "g"⟩)]⟩, some 3⟩,
         ⟨"g", ⟨[(1, ⟨⟨1⟩, false, "g"⟩)]⟩, some 3⟩, .ok none) :=
  catalog_not_modified_leaves_cache (fun _ s => s) 7
    (fun _ => .ok ⟨.notModified, .ok ""⟩) (fun _ => .error (.parseError ""))
    ⟨"g", ⟨[(1, ⟨⟨1⟩, false, "g"⟩)]⟩, some 3⟩ ⟨.notModified, .ok ""⟩ rfl rfl

/-- Claim C4: The request `catalog()` issues: with no recorded
timestamp it is the unconditional GET of the catalog URL with no
conditional header; with a recorded timestamp it carries an
`If-Modified-Since` header whose value is the timestamp formatted
with the exact pattern `"%a, %d %b %Y %T GMT"`. -/
theorem catalog_request_conditional (fmt : Nat → String → String)
    (nowT : Nat) (get : Request → Except Err Response)
    (parse : String → Except Err Catalog) (b : Board) :
    (b.catalog_last_modified = none →
      (Board.catalog fmt nowT get parse b).1
        = { url := catalogUrl b.name, ifModifiedSince := none })
    ∧ (∀ dt, b.catalog_last_modified = some dt →
      (Board.catalog fmt nowT get parse b).1
        = { url := catalogUrl b.name,
            ifModifiedSince := some (fmt dt "%a, %d %b %Y %T GMT") }) := by
  rw [catalog_fst_eq, Board.catalogRequest]
  constructor
  · intro h; rw [h]
  · intro dt h; rw [h]; rfl

/-- Witness for C4: a first call (no timestamp) issues the bare GET;
a call with a recorded timestamp attaches the formatted header. -/
theorem catalog_request_conditional_witness :
    (Board.catalog (fun n s => s ++ toString n) 0
        (fun _ => .ok ⟨.notModified, .ok ""⟩)
        (fun _ => .error (.parseError "")) ⟨"g", ⟨[]⟩, none⟩).1
      = { url := catalogUrl "g", ifModifiedSince := none }
    ∧ (Board.catalog (fun n s => s ++ toString n) 0
        (fun _ => .ok ⟨.notModified, .ok ""⟩)
        (fun _ => .error (.parseError "")) ⟨"g", ⟨[]⟩, some 3⟩).1
      = { url := catalogUrl "g",
          ifModifiedSince := some ("%a, %d %b %Y %T GMT" ++ toString 3) } :=
  ⟨(catalog_request_conditional (fun n s => s ++ toString n) 0
      (fun _ => .ok ⟨.notModified, .ok ""⟩) (fun _ => .error (.parseError ""))
      ⟨"g", ⟨[]⟩, none⟩).1 rfl,
   (catalog_request_conditional (fun n s => s ++ toString n) 0
      (fun _ => .ok ⟨.notModified, .ok ""⟩) (fun _ => .error (.parseError ""))
      ⟨"g", ⟨[]⟩, some 3⟩).2 3 rfl⟩

/-- Claim C5: `catalog_last_modified` is assigned a new value (the
current clock reading `nowT`) exactly on a status-200 response; a
transport failure or any non-200 status — "not modified" included —
leaves it at its previous value. -/
theorem catalog_last_modified_only_on_200 (fmt : Nat → String → String)
    (nowT : Nat) (get : Request → Except Err Response)
    (parse : String → Except Err Catalog) (b : Board) :
    (∀ e, get (Board.catalogRequest fmt b) = .error e →
      (Board.catalog fmt nowT get parse b).2.1.catalog_last_modified
        = b.catalog_last_modified)
    ∧ (∀ res, get (Board.catalogRequest fmt b) = .ok res →
        (res.status = .ok →
          (Board.catalog fmt nowT get parse b).2.1.catalog_last_modified
            = some nowT)
        ∧ (res.status ≠ .ok →
          (Board.catalog fmt nowT get parse b).2.1.catalog_last_modified
            = b.catalog_last_modified)) := by
  constructor
  · intro e hget
    simp [Board.catalog, hget]
  · intro res hget
    constructor
    · intro hstatus
      rcases hb : res.body with e | buf
      · simp [Board.catalog, hget, hstatus, hb]
      · rcases hp : parse ("\x7b\"pages\":" ++ buf ++ "\x7d") with e | cat <;>
          simp [Board.catalog, hget, hstatus, hb, hp]
    · intro hstatus
      rcases hs : res.status with _ | _ | code
      · exact absurd hs hstatus
      · simp [Board.catalog, hget, hs]
      · simp [Board.catalog, hget, hs]

/-- Witness for C5: a 200 response advances the timestamp to the
call's clock reading; a "not modified" response leaves the previously
recorded value in place. -/
theorem catalog_last_modified_only_on_200_witness :
    (Board.catalog (fun _ s => s) 7 (fun _ => .ok ⟨.ok, .ok "[]"⟩)
        (fun _ => .ok ⟨[]⟩) ⟨"g", ⟨[]⟩, some 3⟩).2.1.catalog_last_modified
      = some 7
    ∧ (Board.catalog (fun _ s => s) 7 (fun _ => .ok ⟨.notModified, .ok ""⟩)
        (fun _ => .ok ⟨[]⟩) ⟨"g", ⟨[]⟩, some 3⟩).2.1.catalog_last_modified
      = some 3 :=
  ⟨((catalog_last_modified_only_on_200 (fun _ s => s) 7
      (fun _ => .ok ⟨.ok, .ok "[]"⟩) (fun _ => .ok ⟨[]⟩)
      ⟨"g", ⟨[]⟩, some 3⟩).2 ⟨.ok, .ok "[]"⟩ rfl).1 rfl,
   ((catalog_last_modified_only_on_200 (fun _ s => s) 7
      (fun _ => .ok ⟨.notModified, .ok ""⟩) (fun _ => .ok ⟨[]⟩)
      ⟨"g", ⟨[]⟩, some 3⟩).2 ⟨.notModified, .ok ""⟩ rfl).2 (by decide)⟩

/-- Claim C6: Any catalog response status other than 200/"not modified"
fails the call with `UnexpectedResponse`; a transport failure of the
GET, a failure reading the body, and a deserialization failure are
each propagated to the caller unchanged. -/
theorem catalog_error_propagation (fmt : Nat → String → String)
    (nowT : Nat) (get : Request → Except Err Response)
    (parse : String → Except Err Catalog) (b : Board) :
    (∀ res code, get (Board.catalogRequest fmt b) = .ok res →
      res.status = .other code →
      (Board.catalog fmt nowT get parse b).2.2 = .error .unexpectedResponse)
    ∧ (∀ e, get (Board.catalogRequest fmt b) = .error e →
      (Board.catalog fmt nowT get parse b).2.2 = .error e)
    ∧ (∀ res e, get (Board.catalogRequest fmt b) = .ok res →
      res.status = .ok → res.body = .error e →
      (Board.catalog fmt nowT get parse b).2.2 = .error e)
    ∧ (∀ res buf e, get (Board.catalogRequest fmt b) = .ok res →
      res.status = .ok → res.body = .ok buf →
      parse ("\x7b\"pages\":" ++ buf ++ "\x7d") = .error e →
      (Board.catalog fmt nowT get parse b).2.2 = .error e) := by
  refine ⟨?_, ?_, ?_, ?_⟩
  · intro res code hget hstatus
    simp [Board.catalog, hget, hstatus]
  · intro e hget
    simp [Board.catalog, hget]
  · intro res e hget hstatus hbody
    simp [Board.catalog, hget, hstatus, hbody]
  · intro res buf e hget hstatus hbody hparse
    simp [Board.catalog, hget, hstatus, hbody, hparse]

/-- Witness for C6: a 500 response yields `UnexpectedResponse`; a
transport error and a deserialization error come back unchanged. -/
theorem catalog_error_propagation_witness :
    (Board.catalog (fun _ s => s) 0 (fun _ => .ok ⟨.other 500, .ok ""⟩)
        (fun _ => .ok ⟨[]⟩) ⟨"g", ⟨[]⟩, none⟩).2.2
      = .error .unexpectedResponse
    ∧ (Board.catalog (fun _ s => s) 0 (fun _ => .error (.transport 1))
        (fun _ => .ok ⟨[]⟩) ⟨"g", ⟨[]⟩, none⟩).2.2 = .error (.transport 1)
    ∧ (Board.catalog (fun _ s => s) 0 (fun _ => .ok ⟨.ok, .ok "[]"⟩)
        (fun _ => .error (.parseError "bad")) ⟨"g", ⟨[]⟩, none⟩).2.2
      = .error (.parseError "bad") :=
  ⟨(catalog_error_propagation (fun _ s => s) 0
      (fun _ => .ok ⟨.other 500, .ok ""⟩) (fun _ => .ok ⟨[]⟩)
      ⟨"g", ⟨[]⟩, none⟩).1 ⟨.other 500, .ok ""⟩ 500 rfl rfl,
   (catalog_error_propagation (fun _ s => s) 0
      (fun _ => .error (.transport 1)) (fun _ => .ok ⟨[]⟩)
      ⟨"g", ⟨[]⟩, none⟩).2.1 (.transport 1) rfl,
   (catalog_error_propagation (fun _ s => s) 0
      (fun _ => .ok ⟨.ok, .ok "[]"⟩) (fun _ => .error (.parseError "bad"))
      ⟨"g", ⟨[]⟩, none⟩).2.2.2 ⟨.ok, .ok "[]"⟩ "[]" (.parseError "bad")
      rfl rfl rfl rfl⟩

/-! ## Cache reconciliation lemmas for `catalog` and `get_thread` -/

/-- The key list of the cache. -/
def ThreadCache.keys (c : ThreadCache) : List Nat :=
  c.threads.map Prod.fst

theorem overwrite_fst (k : Nat) (t : Thread) (p : Nat × Thread) :
    (if p.1 == k then (p.1, t) else p).1 = p.1 := by
  cases p.1 == k <;> rfl

theorem anyKey_map_overwrite (no k : Nat) (t : Thread)
    (l : List (Nat × Thread)) :
    (l.map (fun p => if p.1 == k then (p.1, t) else p)).any (fun p => p.1 == no)
      = l.any (fun p => p.1 == no) := by
  induction l with
  | nil => rfl
  | cons p rest ih =>
    rw [List.map_cons, List.any_cons, List.any_cons, ih, overwrite_fst]

theorem keys_map_overwrite (k : Nat) (t : Thread) (l : List (Nat × Thread)) :
    (l.map (fun p => if p.1 == k then (p.1, t) else p)).map Prod.fst
      = l.map Prod.fst := by
  rw [List.map_map]
  exact List.map_congr_left (fun p _ => overwrite_fst k t p)

theorem ThreadCache.contains_eq_keys_mem (c : ThreadCache) (no : Nat) :
    c.contains no = true ↔ no ∈ c.keys := by
  unfold ThreadCache.contains ThreadCache.keys
  rw [List.any_eq_true]
  constructor
  · rintro ⟨p, hp, hpk⟩
    exact List.mem_map.mpr ⟨p, hp, by simpa using hpk⟩
  · intro h
    rcases List.mem_map.mp h with ⟨p, hp, rfl⟩
    exact ⟨p, hp, by simp⟩

theorem ThreadCache.contains_insert_iff (c : ThreadCache) (t : Thread)
    (no : Nat) :
    (c.insert t).contains no = true
      ↔ (c.contains no = true ∨ no = t.topic.no) := by
  unfold ThreadCache.insert ThreadCache.contains
  split
  case isTrue hc =>
    rw [show (ThreadCache.mk (c.threads.map
        (fun p => if p.1 == t.topic.no then (p.1, t) else p))).threads
      = c.threads.map (fun p => if p.1 == t.topic.no then (p.1, t) else p)
      from rfl]
    rw [anyKey_map_overwrite]
    constructor
    · exact Or.inl
    · rintro (h | rfl)
      · exact h
      · exact hc
  case isFalse hc =>
    rw [show (ThreadCache.mk (c.threads ++ [(t.topic.no, t)])).threads
      = c.threads ++ [(t.topic.no, t)] from rfl]
    rw [List.any_append, Bool.or_eq_true]
    refine or_congr Iff.rfl ?_
    simp only [List.any_cons, List.any_nil, Bool.or_false, beq_iff_eq]
    exact eq_comm

theorem ThreadCache.keys_insert (c : ThreadCache) (t : Thread) :
    (c.insert t).keys
      = if c.contains t.topic.no then c.keys else c.keys ++ [t.topic.no] := by
  unfold ThreadCache.insert ThreadCache.keys
  split
  case isTrue hc => exact keys_map_overwrite t.topic.no t c.threads
  case isFalse hc =>
    show List.map Prod.fst (c.threads ++ [(t.topic.no, t)])
      = List.map Prod.fst c.threads ++ [t.topic.no]
    rw [List.map_append]
    rfl

theorem ThreadCache.keys_nodup_insert (c : ThreadCache) (t : Thread)
    (h : c.keys.Nodup) : (c.insert t).keys.Nodup := by
  rw [ThreadCache.keys_insert]
  split
  · exact h
  case isFalse hc =>
    rw [List.nodup_append]
    refine ⟨h, List.nodup_singleton _, ?_⟩
    intro a ha hb
    rw [List.mem_singleton] at hb
    subst hb
    exact hc ((ThreadCache.contains_eq_keys_mem c t.topic.no).mpr ha)

theorem foldl_insert_contains (name : String) (topics : List Post) :
    ∀ (c0 : ThreadCache) (topic : Post),
      (topic ∈ topics ∨ c0.contains topic.no = true) →
      (topics.foldl (fun c t => c.insert (Thread.from_topic t name))
        c0).contains topic.no = true := by
  induction topics with
  | nil =>
    rintro c0 topic (h | h)
    · cases h
    · exact h
  | cons p rest ih =>
    rintro c0 topic (h | h)
    · rcases List.mem_cons.mp h with rfl | hmem
      · refine ih _ _ (Or.inr ?_)
        exact (ThreadCache.contains_insert_iff _ _ _).mpr (Or.inr rfl)
      · exact ih _ _ (Or.inl hmem)
    · exact ih _ _ (Or.inr ((ThreadCache.contains_insert_iff _ _ _).mpr (Or.inl h)))

theorem foldl_insert_keys_nodup (name : String) (topics : List Post) :
    ∀ c0 : ThreadCache, c0.keys.Nodup →
      (topics.foldl (fun c t => c.insert (Thread.from_topic t name))
        c0).keys.Nodup := by
  induction topics with
  | nil => intro c0 h; exact h
  | cons p rest ih =>
    intro c0 h
    exact ih _ (ThreadCache.keys_nodup_insert _ _ h)

theorem get_map_overwrite (k : Nat) (t : Thread) (l : List (Nat × Thread))
    (h : l.any (fun p => p.1 == k) = true) :
    ((l.map (fun p => if p.1 == k then (p.1, t) else p)).find?
      (fun p => p.1 == k)).map Prod.snd = some t := by
  induction l with
  | nil => simp at h
  | cons p rest ih =>
    rw [List.map_cons]
    cases hk : (p.1 == k)
    · rw [List.find?_cons_of_neg _ (by simp [hk])]
      rw [List.any_cons, hk, Bool.false_or] at h
      exact ih h
    · rw [List.find?_cons_of_pos _ (by simp [hk])]
      rfl

theorem get_append_single (k : Nat) (t : Thread) (l : List (Nat × Thread))
    (h : l.any (fun p => p.1 == k) = false) :
    ((l ++ [(k, t)]).find? (fun p => p.1 == k)).map Prod.snd = some t := by
  induction l with
  | nil => simp
  | cons p rest ih =>
    rw [List.any_cons, Bool.or_eq_false_iff] at h
    rw [List.cons_append, List.find?_cons_of_neg _ (by simp [h.1])]
    exact ih h.2

theorem ThreadCache.get_insert_self (c : ThreadCache) (t : Thread) :
    (c.insert t).get t.topic.no = some t := by
  unfold ThreadCache.insert
  split
  case isTrue hc => exact get_map_overwrite _ _ _ hc
  case isFalse hc =>
    refine get_append_single _ _ _ ?_
    exact Bool.eq_false_iff.mpr hc

/-- Claim C2: On a 200 catalog response (with the body read and parsed
successfully), `catalog()` returns `Ok(Some(catalog))` with exactly
the parsed catalog, and afterwards the thread cache contains an entry
keyed by the thread number of every topic of every page; key
uniqueness is preserved, so an existing entry for the same thread
number was overwritten, not duplicated. -/
theorem catalog_200_updates_cache (fmt : Nat → String → String)
    (nowT : Nat) (get : Request → Except Err Response)
    (parse : String → Except Err Catalog) (b : Board) (res : Response)
    (buf : String) (cat : Catalog)
    (hget : get (Board.catalogRequest fmt b) = .ok res)
    (hstatus : res.status = .ok)
    (hbody : res.body = .ok buf)
    (hparse : parse ("\x7b\"pages\":" ++ buf ++ "\x7d") = .ok cat)
    (hnodup : b.thread_cache.keys.Nodup) :
    (Board.catalog fmt nowT get parse b).2.2 = .ok (some cat)
    ∧ (∀ topic ∈ cat.topics,
        (Board.catalog fmt nowT get parse b).2.1.thread_cache.contains
          topic.no = true)
    ∧ (Board.catalog fmt nowT get parse b).2.1.thread_cache.keys.Nodup := by
  have hcat : Board.catalog fmt nowT get parse b
      = (Board.catalogRequest fmt b,
         { b with catalog_last_modified := some nowT,
                  thread_cache := cat.topics.foldl
                    (fun c topic => c.insert (Thread.from_topic topic b.name))
                    b.thread_cache },
         .ok (some cat)) := by
    simp [Board.catalog, hget, hstatus, hbody, hparse]
  rw [hcat]
  refine ⟨rfl, ?_, ?_⟩
  · intro topic hmem
    exact foldl_insert_contains b.name cat.topics b.thread_cache topic
      (Or.inl hmem)
  · exact foldl_insert_keys_nodup b.name cat.topics b.thread_cache hnodup

/-- Witness for C2: a concrete 200 exchange parsing to a one-page
catalog with topic 10 returns that catalog and leaves topic 10 cached
with unique keys. -/
theorem catalog_200_updates_cache_witness :
    (Board.catalog (fun _ s => s) 5 (fun _ => .ok ⟨.ok, .ok "[]"⟩)
        (fun _ => .ok ⟨[⟨1, [⟨10⟩]⟩]⟩) ⟨"g", ⟨[]⟩, none⟩).2.2
      = .ok (some ⟨[⟨1, [⟨10⟩]⟩]⟩)
    ∧ (Board.catalog (fun _ s => s) 5 (fun _ => .ok ⟨.ok, .ok "[]"⟩)
        (fun _ => .ok ⟨[⟨1, [⟨10⟩]⟩]⟩) ⟨"g", ⟨[]⟩, none⟩).2.1.thread_cache.contains
        10 = true :=
  have h := catalog_200_updates_cache (fun _ s => s) 5
    (fun _ => .ok ⟨.ok, .ok "[]"⟩) (fun _ => .ok ⟨[⟨1, [⟨10⟩]⟩]⟩)
    ⟨"g", ⟨[]⟩, none⟩ ⟨.ok, .ok "[]"⟩ "[]" ⟨[⟨1, [⟨10⟩]⟩]⟩
    rfl rfl rfl rfl (by decide)
  ⟨h.1, h.2.1 ⟨10⟩ (by decide)⟩

/-- Claim C9: For a thread id absent from the cache, `get_thread` issues
the unconditional GET of that thread's JSON URL (no conditional
header), deserializes the body into a thread entity, inserts it into
the cache keyed by the entity's own thread number, and returns
exactly that entity; the cached entry under that key equals the
returned value, and from an empty cache the post-call cache holds
exactly that one entry. -/
theorem get_thread_absent_inserts (get : Request → Except Err Response)
    (parse : String → Except Err ThreadDeserializer)
    (upd : Thread → Except Err Thread) (b : Board) (thread_no : Nat)
    (res : Response) (buf : String) (d : ThreadDeserializer)
    (habsent : b.thread_cache.contains thread_no = false)
    (hget : get { url := threadUrl b.name thread_no,
                  ifModifiedSince := none } = .ok res)
    (hbody : res.body = .ok buf)
    (hparse : parse buf = .ok d) :
    Board.get_thread get parse upd b thread_no
      = (some { url := threadUrl b.name thread_no, ifModifiedSince := none },
         { b with thread_cache :=
             b.thread_cache.insert (Thread.from_deserializer d b.name) },
         .ok (Thread.from_deserializer d b.name))
    ∧ (b.thread_cache.insert (Thread.from_deserializer d b.name)).get
        (Thread.from_deserializer d b.name).topic.no
        = some (Thread.from_deserializer d b.name)
    ∧ (b.thread_cache.threads = [] →
        (b.thread_cache.insert (Thread.from_deserializer d b.name)).threads
          = [((Thread.from_deserializer d b.name).topic.no,
              Thread.from_deserializer d b.name)]) := by
  refine ⟨?_, ThreadCache.get_insert_self _ _, ?_⟩
  · simp [Board.get_thread, habsent, hget, hbody, hparse]
  · intro hempty
    simp [ThreadCache.insert, ThreadCache.contains, hempty]

/-- Witness for C9 (the spec's scenario): `get_thread(99)` on an
empty cache fetches the thread JSON unconditionally and leaves
exactly one cache entry, keyed 99, equal to the returned thread. -/
theorem get_thread_absent_inserts_witness :
    Board.get_thread (fun _ => .ok ⟨.ok, .ok "x"⟩)
        (fun _ => .ok ⟨⟨99⟩, false⟩) (fun t => .ok t)
        ⟨"g", ⟨[]⟩, none⟩ 99
      = (some { url := threadUrl "g" 99, ifModifiedSince := none },
         ⟨"g", ⟨[(99, ⟨⟨99⟩, false, "g"⟩)]⟩, none⟩,
         .ok ⟨⟨99⟩, false, "g"⟩) :=
  (get_thread_absent_inserts (fun _ => .ok ⟨.ok, .ok "x"⟩)
    (fun _ => .ok ⟨⟨99⟩, false⟩) (fun t => .ok t) ⟨"g", ⟨[]⟩, none⟩ 99
    ⟨.ok, .ok "x"⟩ "x" ⟨⟨99⟩, false⟩ rfl rfl rfl rfl).1
